import Mathlib

/-!
The repository qzone-history, package `qrcode` (src/pkg/qrcode/qrcode.go)

A shallow embedding of the QR login helpers: `SaveQRCode`, `SaveAndDisplayQRCode`,
`OpenInBrowser` (the local callback server with its two closures) and `openBrowser`.

Go `string` values are Lean `String`s, `[]byte` values are lists over `Fin 256`,
Go `error` values are the inductive `GoError` (`none` is a nil error).  Calls that leave
the process (`net.Listen`, `os.Getwd`, `os.WriteFile`, `cmd.Start`) take their outcome
from an explicit environment and record their effect in an explicit state.
-/

namespace Qrcode

/-! ## Errors -/

/-- A Go `error`: either an error made by a library call, or `fmt.Errorf` with a `%w`
verb, which keeps the wrapped error. -/
inductive GoError where
  | msg (text : String)
  | wrap (context : String) (inner : GoError)
  deriving DecidableEq, Repr

/-- The method `Error()`: `fmt.Errorf("ctx: %w", err)` prints the context followed by
the text of the wrapped error. -/
def GoError.Error : GoError → String
  | .msg t => t
  | .wrap c e => c ++ e.Error

/-- The function `errors.Unwrap`. -/
def GoError.Unwrap : GoError → Option GoError
  | .msg _ => none
  | .wrap _ e => some e

/-! ## The callback server: captured variables, handlers, closures -/

/-- The variables the handlers and closures of `OpenInBrowser` capture: the page
rendered once (`html`), the flag `loginSuccess`, and the part of `server` the closures
touch: whether `server.Shutdown` has run (the listener is then closed and no new
connection is accepted). -/
structure Server where
  html : String
  loginSuccess : Bool
  inShutdown : Bool
  deriving DecidableEq, Repr

/-- What a handler writes: the `Content-Type` header it sets and the bytes it writes. -/
structure Response where
  contentType : String
  body : String
  deriving DecidableEq, Repr

/-- The handler registered on `/` (qrcode.go lines 99-102). -/
def handleRoot (s : Server) : Server × Response :=
  (s, { contentType := "text/html; charset=utf-8", body := s.html })

/-- The handler registered on `/status` (qrcode.go lines 103-110). -/
def handleStatus (s : Server) : Server × Response :=
  (s, { contentType := "application/json",
        body := if s.loginSuccess then "\x7b\"success\": true\x7d"
                else "\x7b\"success\": false\x7d" })

/-- The closure `notifySuccess` (lines 130-132): `loginSuccess = true`. -/
def notifySuccess (s : Server) : Server :=
  { s with loginSuccess := true }

/-- The closure `shutdown` (lines 127-129): `server.Shutdown(context.Background())`,
which closes the listener; the result of `Shutdown` is dropped. -/
def shutdown (s : Server) : Server :=
  { s with inShutdown := true }

/-- The operations on a running server instance. -/
inductive Op where
  | getRoot
  | getStatus
  | notifySuccess
  | shutdown
  deriving DecidableEq, Repr

/-- One operation.  A request is dispatched to its handler while the listener is open;
after `shutdown` the connection is refused and there is no response (`none`). -/
def step (s : Server) : Op → Server × Option Response
  | .getRoot => if s.inShutdown then (s, none) else ((handleRoot s).1, some (handleRoot s).2)
  | .getStatus =>
      if s.inShutdown then (s, none) else ((handleStatus s).1, some (handleStatus s).2)
  | .notifySuccess => (notifySuccess s, none)
  | .shutdown => (shutdown s, none)

/-- The state after a sequence of operations. -/
def exec (s : Server) : List Op → Server
  | [] => s
  | op :: ops => exec (step s op).1 ops

/-- The responses of a sequence of operations, one entry per operation. -/
def responses (s : Server) : List Op → List (Option Response)
  | [] => []
  | op :: ops => (step s op).2 :: responses (step s op).1 ops

/-- The server state right after `OpenInBrowser` has started serving `html`
(line 78: `loginSuccess := false`). -/
def newServer (html : String) : Server :=
  { html := html, loginSuccess := false, inShutdown := false }

/-! ## base64.StdEncoding -/

/-- A byte of a Go `[]byte`. -/
abbrev Byte := Fin 256

/-- The alphabet of `base64.StdEncoding`. -/
def encodeStd : List Char :=
  "ABCDEFGHIJKLMNOPQRSTUVWXYZabcdefghijklmnopqrstuvwxyz0123456789+/".data

/-- The character for a 6-bit value. -/
def stdChar (i : Nat) : Char := encodeStd.getD i 'A'

/-- `Encoding.Encode` of `encoding/base64` with the standard alphabet and `=` padding:
each full group of three bytes gives four characters of the 24-bit value `val`, and a
remainder of one or two bytes gives two or three characters followed by padding. -/
def encodeChars : List Byte → List Char
  | [] => []
  | [a] =>
      let val := a.val * 65536
      [stdChar (val / 262144 % 64), stdChar (val / 4096 % 64), '=', '=']
  | [a, b] =>
      let val := a.val * 65536 + b.val * 256
      [stdChar (val / 262144 % 64), stdChar (val / 4096 % 64), stdChar (val / 64 % 64), '=']
  | a :: b :: c :: rest =>
      let val := a.val * 65536 + b.val * 256 + c.val
      stdChar (val / 262144 % 64) :: stdChar (val / 4096 % 64) :: stdChar (val / 64 % 64)
        :: stdChar (val % 64) :: encodeChars rest

/-- `base64.StdEncoding.EncodeToString`. -/
def EncodeToString (src : List Byte) : String := String.mk (encodeChars src)

/-- The 6-bit value of a character of the standard alphabet. -/
def stdIndex (c : Char) : Option Nat :=
  if c ∈ encodeStd then some (encodeStd.indexOf c) else none

/-- The byte `n mod 256`. -/
def toByte (n : Nat) : Byte := ⟨n % 256, Nat.mod_lt _ (by decide)⟩

/-- Decoding of a padded standard-alphabet base64 text (RFC 4648 section 4), the inverse
the round-trip property speaks of: groups of four characters, `=` padding only in the
last group, and `none` for anything else.  The unused low bits of a padded group are
not checked, as in the non-strict mode of Go's decoder. -/
def decodeChars : List Char → Option (List Byte)
  | [] => some []
  | a :: b :: c :: d :: rest =>
      if rest = [] ∧ d = '=' then
        if c = '=' then
          (stdIndex a).bind fun x => (stdIndex b).bind fun y =>
            some [toByte (x * 4 + y / 16)]
        else
          (stdIndex a).bind fun x => (stdIndex b).bind fun y => (stdIndex c).bind fun z =>
            some [toByte (x * 4 + y / 16), toByte (y % 16 * 16 + z / 4)]
      else
        (stdIndex a).bind fun x => (stdIndex b).bind fun y => (stdIndex c).bind fun z =>
          (stdIndex d).bind fun w => (decodeChars rest).bind fun tl =>
            some (toByte (x * 4 + y / 16) :: toByte (y % 16 * 16 + z / 4)
              :: toByte (z % 4 * 64 + w) :: tl)
  | _ => none

/-- Decoding of a string, see `decodeChars`. -/
def DecodeString (s : String) : Option (List Byte) := decodeChars s.data

/-! ## html/template: the escapers applied to a plain string value -/

/-- The table `htmlReplacementTable` of html/template (html.go). -/
def htmlReplacementTable (r : Char) : Option String :=
  if r = Char.ofNat 0 then some "�"
  else if r = '"' then some "&#34;"
  else if r = '&' then some "&amp;"
  else if r = Char.ofNat 39 then some "&#39;"
  else if r = '+' then some "&#43;"
  else if r = '<' then some "&lt;"
  else if r = '>' then some "&gt;"
  else none

/-- The function `htmlReplacer` with `badRunes = true`: every rune with an entry in the
table is replaced by it, every other rune is copied. -/
def htmlReplacer (table : Char → Option String) (s : List Char) : List Char :=
  s.flatMap fun r => match table r with
    | some repl => repl.data
    | none => [r]

/-- The escaper `_html_template_htmlescaper` on a value of type `string`. -/
def htmlEscaper (s : String) : String := String.mk (htmlReplacer htmlReplacementTable s.data)

/-- The escaper `_html_template_attrescaper` on a value of type `string`. -/
def attrEscaper (s : String) : String := String.mk (htmlReplacer htmlReplacementTable s.data)

/-- The UTF-8 bytes of a rune. -/
def utf8Bytes (c : Char) : List Nat :=
  let v := c.toNat
  if v < 128 then [v]
  else if v < 2048 then [192 + v / 64, 128 + v % 64]
  else if v < 65536 then [224 + v / 4096, 128 + v / 64 % 64, 128 + v % 64]
  else [240 + v / 262144, 128 + v / 4096 % 64, 128 + v / 64 % 64, 128 + v % 64]

/-- The digit of `"0123456789abcdef"` for a value below 16. -/
def hexDigit (n : Nat) : Char := "0123456789abcdef".data.getD n '0'

/-- The percent-encoding `%xx` of every byte of a rune. -/
def pctEncode (c : Char) : List Char :=
  (utf8Bytes c).flatMap fun b => ['%', hexDigit (b / 16), hexDigit (b % 16)]

/-- The predicate `isHex` of html/template (url.go). -/
def isHex (c : Char) : Bool :=
  ('0' ≤ c ∧ c ≤ '9') ∨ ('a' ≤ c ∧ c ≤ 'f') ∨ ('A' ≤ c ∧ c ≤ 'F')

/-- The bytes `processURLOnto` keeps when normalising: reserved and unreserved
characters of RFC 3986. -/
def urlKept (c : Char) : Bool :=
  c ∈ "!#$&*+,/:;=?@[]".data ∨ c ∈ "-._~".data
    ∨ ('a' ≤ c ∧ c ≤ 'z') ∨ ('A' ≤ c ∧ c ≤ 'Z') ∨ ('0' ≤ c ∧ c ≤ '9')

/-- The function `processURLOnto` with `norm = true` (url.go): kept characters and valid
`%xx` escapes are copied, everything else is percent-encoded. -/
def processURL : List Char → List Char
  | [] => []
  | c :: rest =>
      (if urlKept c then [c]
       else if c = '%' then
         match rest with
         | h1 :: h2 :: _ => if isHex h1 ∧ isHex h2 then [c] else pctEncode c
         | _ => pctEncode c
       else pctEncode c) ++ processURL rest

/-- The escaper `_html_template_urlnormalizer` on a value of type `string`. -/
def urlNormalizer (s : String) : String := String.mk (processURL s.data)

/-- Where the action `{{.QRCodeBase64}}` stands in the page, which decides the escapers
html/template inserts (escape.go, `escapeAction`): element content, a quoted attribute
value, or a quoted URL attribute value (such as `src`) before any `?` or `#`. -/
inductive EscapeContext where
  | text
  | attr
  | urlAttr
  deriving DecidableEq, Repr

/-- The escaper pipeline of a context, applied to the string value of the action. -/
def escapeAction : EscapeContext → String → String
  | .text, v => htmlEscaper v
  | .attr, v => attrEscaper v
  | .urlAttr, v => attrEscaper (urlNormalizer v)

/-- Modelled from the spec: the embedded file `templates/login.html` (the variable
`loginTemplate`, qrcode.go lines 20-21) is not part of the sources.  The spec describes
it as a static HTML document with one substitution point, the base64-encoded image
payload, embedded in the page as a data URI.  It is taken as a parameter through what
`Parse` and `Execute` of html/template do with it: `Parse` fails, or `Execute` fails, or
the page is the text `pre`, the escaped value of `.QRCodeBase64`, and the text `post`. -/
inductive LoginTemplate where
  | malformed (err : GoError)
  | failing (err : GoError)
  | page (pre : String) (ctx : EscapeContext) (post : String)
  deriving DecidableEq, Repr

/-- The template after a successful `Parse`. -/
inductive Template where
  | failing (err : GoError)
  | page (pre : String) (ctx : EscapeContext) (post : String)
  deriving DecidableEq, Repr

/-- The call `template.New("login").Parse(loginTemplate)`. -/
def Parse : LoginTemplate → Except GoError Template
  | .malformed e => .error e
  | .failing e => .ok (.failing e)
  | .page pre ctx post => .ok (.page pre ctx post)

/-- The call `tmpl.Execute(&htmlBuf, map[string]string{"QRCodeBase64": base64Data})`
followed by `htmlBuf.String()`. -/
def Execute : Template → String → Except GoError String
  | .failing e, _ => .error e
  | .page pre ctx post, base64Data => .ok (pre ++ escapeAction ctx base64Data ++ post)

/-! ## fmt.Sprintf("%d"), filepath.Join -/

/-- The verb `%d` of `fmt.Sprintf` on a non-negative integer: its decimal digits. -/
def formatInt (n : Nat) : String := String.mk (Nat.toDigits 10 n)

/-- The number a list of decimal digits stands for, with `acc` the value read so far. -/
def decimalValue (acc : Nat) : List Char → Nat
  | [] => acc
  | c :: cs => decimalValue (acc * 10 + (c.toNat - 48)) cs

/-- Splits a path at every `/`. -/
def splitSlash : List Char → List (List Char)
  | [] => [[]]
  | c :: cs =>
      match splitSlash cs with
      | [] => [[]]
      | hd :: tl => if c = '/' then [] :: hd :: tl else (c :: hd) :: tl

/-- One element of a path pushed on the elements kept so far (most recent first), as
`filepath.Clean` does: empty and `.` elements are dropped, `..` removes the element
before it, is dropped at the root, and is kept at the start of a relative path. -/
def cleanPush (rooted : Bool) (kept : List (List Char)) (e : List Char) : List (List Char) :=
  if e = [] ∨ e = ['.'] then kept
  else if e = ['.', '.'] then
    match kept with
    | [] => if rooted then [] else [e]
    | top :: below => if top = ['.', '.'] then e :: kept else below
  else e :: kept

/-- The function `filepath.Clean` with `/` as separator. -/
def Clean (path : String) : String :=
  let rooted := path.data.head? = some '/'
  let kept := ((splitSlash path.data).foldl (cleanPush rooted) []).reverse
  let body := String.mk (List.intercalate ['/'] kept)
  if rooted then "/" ++ body else if body = "" then "." else body

/-- The function `filepath.Join` on two elements, with `/` as separator: empty elements
are ignored and the result is cleaned. -/
def Join (a b : String) : String :=
  if a = "" then (if b = "" then "" else Clean b)
  else if b = "" then Clean a
  else Clean (a ++ "/" ++ b)

/-! ## openBrowser and OpenInBrowser -/

/-- An `exec.Cmd`: the program and its arguments. -/
structure Cmd where
  name : String
  args : List String
  deriving DecidableEq, Repr

/-- What is written to standard output: text, or the half-block rendering of a QR code
by `qrterminal.GenerateHalfBlock`. -/
inductive Output where
  | text (s : String)
  | halfBlock (content : List Byte)
  deriving DecidableEq, Repr

/-- What the process environment answers to the calls `OpenInBrowser` makes:
`net.Listen("tcp", "127.0.0.1:0")` (the port assigned), the embedded template,
`runtime.GOOS`, and `cmd.Start()` for each command. -/
structure Env where
  listen : Except GoError Nat
  loginTemplate : LoginTemplate
  GOOS : String
  start : Cmd → Option GoError

/-- The function `openBrowser` (lines 138-153): the error it returns, and the commands
on which `cmd.Start()` was called. -/
def openBrowser (GOOS : String) (start : Cmd → Option GoError) (url : String) :
    Option GoError × List Cmd :=
  if GOOS = "darwin" then
    (start ⟨"open", [url]⟩, [⟨"open", [url]⟩])
  else if GOOS = "linux" then
    (start ⟨"xdg-open", [url]⟩, [⟨"xdg-open", [url]⟩])
  else if GOOS = "windows" then
    (start ⟨"rundll32", ["url.dll,FileProtocolHandler", url]⟩,
      [⟨"rundll32", ["url.dll,FileProtocolHandler", url]⟩])
  else
    (some (.msg ("不支持的操作系统: " ++ GOOS)), [])

/-- The effects of a call of `OpenInBrowser` when it returns: the port of the listener
it has bound, whether it has closed that listener again, the server started with
`go server.Serve(listener)`, the commands started, and what was printed. -/
structure Effects where
  bound : Option Nat
  closed : Bool
  server : Option Server
  started : List Cmd
  stdout : List Output

/-- The three results of `OpenInBrowser`; a closure acts on the variables it captured. -/
structure Results where
  shutdown : Option (Server → Server)
  notifySuccess : Option (Server → Server)
  err : Option GoError

/-- The URL of line 75: `fmt.Sprintf("http://127.0.0.1:%d", port)`. -/
def baseURL (port : Nat) : String := "http://127.0.0.1:" ++ formatInt port

/-- The function `OpenInBrowser` (lines 67-135). -/
def OpenInBrowser (env : Env) (qrData : List Byte) : Results × Effects :=
  match env.listen with
  | .error err =>
      (⟨none, none, some (.wrap "无法监听端口: " err)⟩, ⟨none, false, none, [], []⟩)
  | .ok port =>
      let url := baseURL port
      match Parse env.loginTemplate with
      | .error err =>
          (⟨none, none, some (.wrap "解析模板失败: " err)⟩, ⟨some port, false, none, [], []⟩)
      | .ok tmpl =>
          let base64Data := EncodeToString qrData
          match Execute tmpl base64Data with
          | .error err =>
              (⟨none, none, some (.wrap "渲染模板失败: " err)⟩, ⟨some port, false, none, [], []⟩)
          | .ok html =>
              let launch := openBrowser env.GOOS env.start url
              let line :=
                if launch.1.isSome then "无法自动打开浏览器，请手动访问: " ++ url ++ "\n"
                else "已在浏览器中打开二维码页面: " ++ url ++ "\n"
              (⟨some shutdown, some notifySuccess, none⟩,
               ⟨some port, false, some (newServer html), launch.2, [.text line]⟩)

/-! ## SaveQRCode and SaveAndDisplayQRCode -/

/-- A regular file: its contents and its permission bits. -/
structure File where
  data : List Byte
  mode : Nat
  deriving DecidableEq, Repr

/-- The files by path. -/
abbrev Files := String → Option File

/-- How a call of `os.WriteFile` goes: it opens the file (`O_WRONLY|O_CREATE|O_TRUNC`),
writes, and closes, and each of the three can fail; a failed write has written the
first `written` bytes. -/
inductive WriteOutcome where
  | ok
  | openFails (err : GoError)
  | writeFails (written : Nat) (err : GoError)
  | closeFails (err : GoError)
  deriving DecidableEq, Repr

/-- What the operating system answers to the calls of `SaveQRCode`: `os.Getwd()`, the
course of `os.WriteFile`, and the umask of the process. -/
structure OS where
  getwd : Except GoError String
  write : WriteOutcome
  umask : Nat

/-- The file `name` replaced by `f`. -/
def Files.set (fs : Files) (name : String) (f : File) : Files :=
  fun p => if p = name then some f else fs p

/-- The permission bits of the file after `OpenFile(name, O_WRONLY|O_CREATE|O_TRUNC, perm)`:
a file that does not exist is created with `perm` without the bits of the umask, an
existing file is truncated and keeps its permissions. -/
def openMode (fs : Files) (umask : Nat) (name : String) (perm : Nat) : Nat :=
  match fs name with
  | some f => f.mode
  | none => perm &&& (0o777 ^^^ (umask &&& 0o777))

/-- The function `os.WriteFile(name, data, perm)`: the error it returns and the files
afterwards. -/
def WriteFile (os : OS) (fs : Files) (name : String) (data : List Byte) (perm : Nat) :
    Option GoError × Files :=
  match os.write with
  | .openFails err => (some err, fs)
  | .writeFails n err => (some err, fs.set name ⟨data.take n, openMode fs os.umask name perm⟩)
  | .closeFails err => (some err, fs.set name ⟨data, openMode fs os.umask name perm⟩)
  | .ok => (none, fs.set name ⟨data, openMode fs os.umask name perm⟩)

/-- The function `SaveQRCode` (lines 24-41): the path and error it returns, and the
files afterwards. -/
def SaveQRCode (os : OS) (fs : Files) (qrData : List Byte) :
    (String × Option GoError) × Files :=
  match os.getwd with
  | .error err => (("", some err), fs)
  | .ok dir =>
      let filename := Join dir "qrcode.png"
      match WriteFile os fs filename qrData 0o644 with
      | (some err, fs') => (("", some err), fs')
      | (none, fs') => ((filename, none), fs')

/-- How a call ends: it returns a value, or it panics. -/
inductive Outcome (α : Type) where
  | returned (value : α)
  | panicked
  deriving DecidableEq, Repr

/-- The characters of the alphanumeric mode of a QR code (rsc.io/qr/coding). -/
def qrAlphabet : List Nat :=
  "0123456789ABCDEFGHIJKLMNOPQRSTUVWXYZ $%*+-./:".data.map Char.toNat

/-- Whether `qr.Encode(text, qr.M)` of rsc.io/qr, which qrterminal calls, finds a version
for the text.  The text is encoded in numeric mode when it has digits only, in
alphanumeric mode when it has characters of `qrAlphabet` only, and in byte mode
otherwise; the largest version, 40, holds 2334 data bytes at level M, and the header
there is 4 bits of mode and 14, 13 or 16 bits of length.  So up to 5596 digits, 3391
alphanumeric characters or 2331 bytes can be encoded. -/
def qrEncodes (text : List Byte) : Bool :=
  if text.all fun b => 48 ≤ b.val ∧ b.val ≤ 57 then
    4 + 14 + (10 * text.length + 2) / 3 ≤ 2334 * 8
  else if text.all fun b => b.val ∈ qrAlphabet then
    4 + 13 + (11 * text.length + 1) / 2 ≤ 2334 * 8
  else
    4 + 16 + 8 * text.length ≤ 2334 * 8

/-- The function `Display` (lines 44-47): how it ends and what it prints.
`qrterminal.GenerateHalfBlock` drops the error of `qr.Encode` and reads the size of the
code it got, which is nil when the text cannot be encoded: the call then panics before
it has written anything. -/
def Display (qrData : List Byte) : Outcome Unit × List Output :=
  if qrEncodes qrData then
    (.returned (), [.halfBlock qrData, .text "请使用手机QQ扫描上方二维码登录\n"])
  else
    (.panicked, [])

/-- The function `SaveAndDisplayQRCode` (lines 50-64): how it ends (the error it
returns, or the panic of `Display`), what it prints, and the files afterwards. -/
def SaveAndDisplayQRCode (os : OS) (fs : Files) (qrData : List Byte) :
    Outcome (Option GoError) × List Output × Files :=
  match SaveQRCode os fs qrData with
  | ((_, some err), fs') => (.returned (some (.wrap "保存二维码失败: " err)), [], fs')
  | ((qrPath, none), fs') =>
      match Display qrData with
      | (.returned _, out) =>
          (.returned none,
           .text ("二维码已保存至 " ++ qrPath ++ "，请使用手机QQ扫描登录\n") :: out, fs')
      | (.panicked, out) =>
          (.panicked,
           .text ("二维码已保存至 " ++ qrPath ++ "，请使用手机QQ扫描登录\n") :: out, fs')

/-- A text in which every `+` is written as the character reference `&#43;` and every
other character is left as it is. -/
def plusEscaped (s : List Char) : List Char :=
  s.flatMap fun c => if c = '+' then "&#43;".data else [c]

/-! ## Concrete inputs -/

/-- A login page with the QR image as a data URI in the `src` attribute of an image. -/
def samplePage : LoginTemplate :=
  .page "<html><body><img src=\"data:image/png;base64," .urlAttr "\"></body></html>"

/-- An environment in which the listener gets port 8080, the template is `samplePage`,
the system is Linux and `xdg-open` starts. -/
def sampleEnv : Env :=
  { listen := .ok 8080, loginTemplate := samplePage, GOOS := "linux", start := fun _ => none }

/-- The bytes of `hello`. -/
def helloBytes : List Byte := [104, 101, 108, 108, 111]

/-- The environment `sampleEnv` with port 9090 instead of 8080. -/
def sampleEnv9090 : Env := { sampleEnv with listen := .ok 9090 }

/-- The environment `sampleEnv` on a system `openBrowser` does not know. -/
def plan9Env : Env := { sampleEnv with GOOS := "plan9" }

/-- The environment `sampleEnv` with a template that `Parse` rejects. -/
def brokenEnv : Env :=
  { sampleEnv with loginTemplate := .malformed (.msg "template: login:1: unexpected EOF") }

/-- A system in which the working directory is `/home/u`, writing succeeds and the
umask is 022. -/
def sampleOS : OS := { getwd := .ok "/home/u", write := .ok, umask := 0o022 }

/-- No file at all. -/
def noFiles : Files := fun _ => none

/-- The files with an empty `/home/u/qrcode.png` readable by its owner only. -/
def privateFiles : Files := noFiles.set "/home/u/qrcode.png" ⟨[], 0o600⟩

end Qrcode

namespace Qrcode

/-! ## The server as a state machine -/

theorem exec_append (s : Server) (a b : List Op) :
    exec s (a ++ b) = exec (exec s a) b := by
  induction a generalizing s with
  | nil => rfl
  | cons op a ih => exact ih _

/-- The state after one operation: requests leave it as it is. -/
theorem step_fst (s : Server) (op : Op) :
    (step s op).1 = match op with
      | .notifySuccess => notifySuccess s
      | .shutdown => shutdown s
      | _ => s := by
  cases op
  · show (if s.inShutdown then (s, none) else ((handleRoot s).1, some (handleRoot s).2)).1 = s
    split <;> rfl
  · show (if s.inShutdown then (s, none)
      else ((handleStatus s).1, some (handleStatus s).2)).1 = s
    split <;> rfl
  · rfl
  · rfl

theorem step_html (s : Server) (op : Op) : (step s op).1.html = s.html := by
  rw [step_fst]; cases op <;> rfl

theorem exec_html (s : Server) (ops : List Op) : (exec s ops).html = s.html := by
  induction ops generalizing s with
  | nil => rfl
  | cons op ops ih => rw [exec, ih, step_html]

theorem step_loginSuccess (s : Server) (op : Op) (h : s.loginSuccess = true) :
    (step s op).1.loginSuccess = true := by
  rw [step_fst]; cases op <;> first | exact h | rfl

theorem step_inShutdown (s : Server) (op : Op) (h : s.inShutdown = true) :
    (step s op).1.inShutdown = true := by
  rw [step_fst]; cases op <;> first | exact h | rfl

theorem exec_loginSuccess (s : Server) (ops : List Op) (h : s.loginSuccess = true) :
    (exec s ops).loginSuccess = true := by
  induction ops generalizing s with
  | nil => exact h
  | cons op ops ih => exact ih _ (step_loginSuccess s op h)

theorem exec_inShutdown (s : Server) (ops : List Op) (h : s.inShutdown = true) :
    (exec s ops).inShutdown = true := by
  induction ops generalizing s with
  | nil => exact h
  | cons op ops ih => exact ih _ (step_inShutdown s op h)

theorem exec_loginSuccess_of_mem (s : Server) (ops : List Op) (h : Op.notifySuccess ∈ ops) :
    (exec s ops).loginSuccess = true := by
  induction ops generalizing s with
  | nil => cases h
  | cons op ops ih =>
      rcases List.mem_cons.1 h with h | h
      · subst h
        exact exec_loginSuccess (step s Op.notifySuccess).1 ops rfl
      · exact ih _ h

theorem exec_loginSuccess_of_not_mem (s : Server) (ops : List Op)
    (h : Op.notifySuccess ∉ ops) : (exec s ops).loginSuccess = s.loginSuccess := by
  induction ops generalizing s with
  | nil => rfl
  | cons op ops ih =>
      have h1 : op ≠ Op.notifySuccess := fun e => h (e ▸ List.mem_cons_self _ _)
      have h2 : Op.notifySuccess ∉ ops := fun e => h (List.mem_cons_of_mem _ e)
      rw [exec, ih _ h2, step_fst]
      cases op <;> first | rfl | exact absurd rfl h1

theorem exec_inShutdown_of_mem (s : Server) (ops : List Op) (h : Op.shutdown ∈ ops) :
    (exec s ops).inShutdown = true := by
  induction ops generalizing s with
  | nil => cases h
  | cons op ops ih =>
      rcases List.mem_cons.1 h with h | h
      · subst h
        exact exec_inShutdown (step s Op.shutdown).1 ops rfl
      · exact ih _ h

theorem exec_inShutdown_of_not_mem (s : Server) (ops : List Op) (h : Op.shutdown ∉ ops) :
    (exec s ops).inShutdown = s.inShutdown := by
  induction ops generalizing s with
  | nil => rfl
  | cons op ops ih =>
      have h1 : op ≠ Op.shutdown := fun e => h (e ▸ List.mem_cons_self _ _)
      have h2 : Op.shutdown ∉ ops := fun e => h (List.mem_cons_of_mem _ e)
      rw [exec, ih _ h2, step_fst]
      cases op <;> first | rfl | exact absurd rfl h1

/-- The response to the operation at index `j` is the one `step` gives in the state
reached by the operations before it. -/
theorem responses_getElem? (s : Server) (ops : List Op) (j : Nat) :
    (responses s ops)[j]? = ops[j]?.map fun op => (step (exec s (ops.take j)) op).2 := by
  induction ops generalizing s j with
  | nil => simp [responses]
  | cons op ops ih =>
      cases j with
      | zero => simp [responses, exec]
      | succ j => simpa [responses, exec] using ih _ j

/-! ## What OpenInBrowser returns and leaves behind -/

theorem OpenInBrowser_page (env : Env) (qrData : List Byte) (port : Nat)
    (pre post : String) (ctx : EscapeContext)
    (hl : env.listen = .ok port) (ht : env.loginTemplate = .page pre ctx post) :
    OpenInBrowser env qrData =
      (⟨some shutdown, some notifySuccess, none⟩,
       ⟨some port, false,
        some (newServer (pre ++ escapeAction ctx (EncodeToString qrData) ++ post)),
        (openBrowser env.GOOS env.start (baseURL port)).2,
        [.text (if (openBrowser env.GOOS env.start (baseURL port)).1.isSome
          then "无法自动打开浏览器，请手动访问: " ++ baseURL port ++ "\n"
          else "已在浏览器中打开二维码页面: " ++ baseURL port ++ "\n")]⟩) := by
  simp only [OpenInBrowser, hl, ht, Parse, Execute]

theorem OpenInBrowser_server (env : Env) (qrData : List Byte) (s0 : Server)
    (h : (OpenInBrowser env qrData).2.server = some s0) :
    ∃ port pre ctx post, env.listen = .ok port ∧ env.loginTemplate = .page pre ctx post ∧
      s0 = newServer (pre ++ escapeAction ctx (EncodeToString qrData) ++ post) := by
  unfold OpenInBrowser at h
  cases hl : env.listen with
  | error e => simp [hl] at h
  | ok port =>
      cases ht : env.loginTemplate with
      | malformed e => simp [hl, ht, Parse] at h
      | failing e => simp [hl, ht, Parse, Execute] at h
      | page pre ctx post =>
          simp only [hl, ht, Parse, Execute, Option.some.injEq] at h
          exact ⟨port, pre, ctx, post, rfl, rfl, h.symm⟩

/-- A call that returns a nil error has bound its listener and rendered a page. -/
theorem OpenInBrowser_success (env : Env) (qrData : List Byte) (port : Nat)
    (hl : env.listen = .ok port) (h : (OpenInBrowser env qrData).1.err = none) :
    ∃ pre ctx post, env.loginTemplate = .page pre ctx post := by
  unfold OpenInBrowser at h
  cases ht : env.loginTemplate with
  | malformed e => simp [hl, ht, Parse] at h
  | failing e => simp [hl, ht, Parse, Execute] at h
  | page pre ctx post => exact ⟨pre, ctx, post, rfl⟩

theorem sampleEnv_server :
    (OpenInBrowser sampleEnv helloBytes).2.server = some (newServer
      "<html><body><img src=\"data:image/png;base64,aGVsbG8=\"></body></html>") := by
  decide

/-! ## Claims on the running server -/

/-- Claim C1: on a server started by `OpenInBrowser`, in every sequence of requests and
`notifySuccess` calls, a `GET /status` handled after a `notifySuccess` call gets the body
`{"success": true}`; no operation resets the flag `loginSuccess` once it is true; and a
`notifySuccess` call on a state whose flag is already true leaves the state as it is. -/
theorem status_true_after_notifySuccess (env : Env) (qrData : List Byte) (s0 : Server)
    (hstart : (OpenInBrowser env qrData).2.server = some s0)
    (ops : List Op) (hops : Op.shutdown ∉ ops) (i j : Nat) (hij : i < j)
    (hi : ops[i]? = some Op.notifySuccess) (hj : ops[j]? = some Op.getStatus) :
    (responses s0 ops)[j]? = some (some ⟨"application/json", "\x7b\"success\": true\x7d"⟩)
    ∧ (∀ (s : Server) (op : Op), s.loginSuccess = true → (step s op).1.loginSuccess = true)
    ∧ (∀ (s : Server) (more : List Op), s.loginSuccess = true →
        (exec s more).loginSuccess = true)
    ∧ (∀ s : Server, s.loginSuccess = true → notifySuccess s = s)
    ∧ (∀ s : Server, notifySuccess (notifySuccess s) = notifySuccess s) := by
  obtain ⟨port, pre, ctx, post, -, -, hs0⟩ := OpenInBrowser_server env qrData s0 hstart
  refine ⟨?_, step_loginSuccess, exec_loginSuccess, ?_, fun s => rfl⟩
  · have hmem : Op.notifySuccess ∈ ops.take j := by
      rw [List.mem_iff_getElem?]
      exact ⟨i, by rw [List.getElem?_take_of_lt hij]; exact hi⟩
    have hno : Op.shutdown ∉ ops.take j := fun h => hops (List.mem_of_mem_take h)
    have h1 := exec_loginSuccess_of_mem s0 (ops.take j) hmem
    have h2 := exec_inShutdown_of_not_mem s0 (ops.take j) hno
    rw [responses_getElem?, hj]
    have h3 : s0.inShutdown = false := by rw [hs0]; rfl
    rw [h3] at h2
    simp [step, handleStatus, h1, h2]
  · intro s hs
    cases s
    simp only [notifySuccess] at hs ⊢
    simp_all

/-- Claim C1 on the sample environment: the second poll of five operations follows two `notifySuccess` calls and reads true. -/
theorem status_true_after_notifySuccess_witness :
    (OpenInBrowser sampleEnv helloBytes).2.server = some (newServer
      "<html><body><img src=\"data:image/png;base64,aGVsbG8=\"></body></html>")
    ∧ (responses (newServer
        "<html><body><img src=\"data:image/png;base64,aGVsbG8=\"></body></html>")
        [Op.getStatus, Op.notifySuccess, Op.getRoot, Op.notifySuccess, Op.getStatus])[4]?
      = some (some ⟨"application/json", "\x7b\"success\": true\x7d"⟩) :=
  ⟨sampleEnv_server,
   (status_true_after_notifySuccess sampleEnv helloBytes _ sampleEnv_server
      [Op.getStatus, Op.notifySuccess, Op.getRoot, Op.notifySuccess, Op.getStatus]
      (by decide) 1 4 (by decide) (by decide) (by decide)).1⟩

/-- Claim C2: on a freshly started server, in every sequence of `GET /` and
`GET /status` requests (no `notifySuccess`), each `GET /status` response has content type
`application/json` and the body `{"success": false}`, which is 18 bytes long; and in
every state the `/status` body is one of `{"success": false}` and `{"success": true}`. -/
theorem status_false_before_notifySuccess (env : Env) (qrData : List Byte) (s0 : Server)
    (hstart : (OpenInBrowser env qrData).2.server = some s0)
    (ops : List Op) (hops : ∀ op ∈ ops, op = Op.getRoot ∨ op = Op.getStatus)
    (j : Nat) (hj : ops[j]? = some Op.getStatus) :
    (responses s0 ops)[j]? = some (some ⟨"application/json", "\x7b\"success\": false\x7d"⟩)
    ∧ String.utf8ByteSize "\x7b\"success\": false\x7d" = 18
    ∧ String.length "\x7b\"success\": false\x7d" = 18
    ∧ (∀ s : Server, (handleStatus s).2.contentType = "application/json"
        ∧ ((handleStatus s).2.body = "\x7b\"success\": false\x7d"
          ∨ (handleStatus s).2.body = "\x7b\"success\": true\x7d")) := by
  obtain ⟨port, pre, ctx, post, -, -, hs0⟩ := OpenInBrowser_server env qrData s0 hstart
  refine ⟨?_, by decide, by decide, ?_⟩
  · have hno : Op.shutdown ∉ ops.take j := fun h => by
      rcases hops _ (List.mem_of_mem_take h) with h | h <;> cases h
    have hnn : Op.notifySuccess ∉ ops.take j := fun h => by
      rcases hops _ (List.mem_of_mem_take h) with h | h <;> cases h
    have h1 := exec_loginSuccess_of_not_mem s0 (ops.take j) hnn
    have h2 := exec_inShutdown_of_not_mem s0 (ops.take j) hno
    have h3 : s0.inShutdown = false := by rw [hs0]; rfl
    have h4 : s0.loginSuccess = false := by rw [hs0]; rfl
    rw [h3] at h2
    rw [h4] at h1
    rw [responses_getElem?, hj]
    simp [step, handleStatus, h1, h2]
  · intro s
    refine ⟨rfl, ?_⟩
    cases h : s.loginSuccess <;> simp [handleStatus, h]

/-- Claim C2 on the sample environment: the third of three requests is a poll and reads false. -/
theorem status_false_before_notifySuccess_witness :
    (OpenInBrowser sampleEnv helloBytes).2.server = some (newServer
      "<html><body><img src=\"data:image/png;base64,aGVsbG8=\"></body></html>")
    ∧ (responses (newServer
        "<html><body><img src=\"data:image/png;base64,aGVsbG8=\"></body></html>")
        [Op.getStatus, Op.getRoot, Op.getStatus])[2]?
      = some (some ⟨"application/json", "\x7b\"success\": false\x7d"⟩) :=
  ⟨sampleEnv_server,
   (status_false_before_notifySuccess sampleEnv helloBytes _ sampleEnv_server
      [Op.getStatus, Op.getRoot, Op.getStatus] (by decide) 2 (by decide)).1⟩

/-- Claim C4: `shutdown` is terminal and idempotent.  From every server state, after the
first `shutdown` call the listener is closed, `GET /` and `GET /status` get no response,
whatever operations follow the server stays shut down and answers no request, and a
further `shutdown` call leaves the state as it is, so that two calls have the effect of
one. -/
theorem shutdown_terminal_idempotent (s : Server) :
    (shutdown s).inShutdown = true
    ∧ (step (shutdown s) Op.getRoot).2 = none
    ∧ (step (shutdown s) Op.getStatus).2 = none
    ∧ (∀ ops : List Op, (exec (shutdown s) ops).inShutdown = true
        ∧ ∀ r ∈ responses (shutdown s) ops, r = none)
    ∧ shutdown (shutdown s) = shutdown s
    ∧ exec s [Op.shutdown, Op.shutdown] = exec s [Op.shutdown]
    ∧ (∀ env qrData, ∀ f ∈ (OpenInBrowser env qrData).1.shutdown, f = shutdown) := by
  have hresp : ∀ (ops : List Op) (t : Server), t.inShutdown = true →
      ∀ r ∈ responses t ops, r = none := by
    intro ops
    induction ops with
    | nil => intro t _ r hr; cases hr
    | cons op ops ih =>
        intro t ht r hr
        rcases List.mem_cons.1 hr with h | h
        · subst h
          cases op <;> simp [step, ht]
        · exact ih _ (step_inShutdown t op ht) r h
  refine ⟨rfl, rfl, rfl, fun ops => ⟨exec_inShutdown _ ops rfl, hresp ops _ rfl⟩,
    rfl, rfl, ?_⟩
  intro env qrData f hf
  unfold OpenInBrowser at hf
  cases hl : env.listen with
  | error e => simp [hl] at hf
  | ok port =>
      cases ht : env.loginTemplate with
      | malformed e => simp [hl, ht, Parse] at hf
      | failing e => simp [hl, ht, Parse, Execute] at hf
      | page pre ctx post =>
          simp only [hl, ht, Parse, Execute, Option.mem_def, Option.some.injEq] at hf
          exact hf.symm

/-- Claim C6: `GET /` is a pure read of the page rendered at start.  On a server started
by `OpenInBrowser`, in every sequence of operations each `GET /` handled before a
`shutdown` gets content type `text/html; charset=utf-8` and as body the HTML that
`Execute` rendered from the payload at startup (after `shutdown` there is no response);
the response is the same before and after `notifySuccess`; and handling `GET /` or
`GET /status` changes neither the cached HTML nor the flag: the state is unchanged. -/
theorem root_pure_read (env : Env) (qrData : List Byte) (s0 : Server)
    (hstart : (OpenInBrowser env qrData).2.server = some s0)
    (ops : List Op) (j : Nat) (hj : ops[j]? = some Op.getRoot) :
    (responses s0 ops)[j]? = some (if Op.shutdown ∈ ops.take j then none
        else some ⟨"text/html; charset=utf-8", s0.html⟩)
    ∧ (∃ tmpl, Parse env.loginTemplate = .ok tmpl
        ∧ Execute tmpl (EncodeToString qrData) = .ok s0.html)
    ∧ (∀ s : Server, (handleRoot (notifySuccess s)).2 = (handleRoot s).2)
    ∧ (∀ s : Server, (handleRoot s).1 = s ∧ (handleStatus s).1 = s
        ∧ (step s Op.getRoot).1 = s ∧ (step s Op.getStatus).1 = s) := by
  obtain ⟨port, pre, ctx, post, -, ht, hs0⟩ := OpenInBrowser_server env qrData s0 hstart
  refine ⟨?_, ⟨.page pre ctx post, by rw [ht]; rfl, by rw [hs0]; rfl⟩, fun s => rfl,
    fun s => ⟨rfl, rfl, step_fst s _, step_fst s _⟩⟩
  rw [responses_getElem?, hj]
  by_cases hmem : Op.shutdown ∈ ops.take j
  · have h2 := exec_inShutdown_of_mem s0 (ops.take j) hmem
    simp [step, h2, hmem]
  · have h2 := exec_inShutdown_of_not_mem s0 (ops.take j) hmem
    have h3 : s0.inShutdown = false := by rw [hs0]; rfl
    rw [h3] at h2
    simp [step, handleRoot, h2, hmem, exec_html]

/-- Claim C6 on the sample environment: the page is served unchanged after a `notifySuccess` and a poll. -/
theorem root_pure_read_witness :
    (OpenInBrowser sampleEnv helloBytes).2.server = some (newServer
      "<html><body><img src=\"data:image/png;base64,aGVsbG8=\"></body></html>")
    ∧ (responses (newServer
        "<html><body><img src=\"data:image/png;base64,aGVsbG8=\"></body></html>")
        [Op.getRoot, Op.notifySuccess, Op.getStatus, Op.getRoot])[3]?
      = some (some ⟨"text/html; charset=utf-8",
          "<html><body><img src=\"data:image/png;base64,aGVsbG8=\"></body></html>"⟩) :=
  ⟨sampleEnv_server,
   (root_pure_read sampleEnv helloBytes _ sampleEnv_server
      [Op.getRoot, Op.notifySuccess, Op.getStatus, Op.getRoot] 3 (by decide)).1⟩


/-! ## The URL and the browser launch -/

theorem digitChar_facts : ∀ k, k < 10 →
    (Nat.digitChar k).toNat - 48 = k ∧ (Nat.digitChar k).isDigit = true
      ∧ (k ≠ 0 → Nat.digitChar k ≠ '0') := by
  decide

theorem decimalValue_append (acc : Nat) (a b : List Char) :
    decimalValue acc (a ++ b) = decimalValue (decimalValue acc a) b := by
  induction a generalizing acc with
  | nil => rfl
  | cons c a ih => exact ih _

/-- The digits `Nat.toDigitsCore` puts in front of `ds`, given enough fuel. -/
theorem toDigitsCore_spec (fuel : Nat) : ∀ (n : Nat) (ds : List Char), n < fuel →
    ∃ front, Nat.toDigitsCore 10 fuel n ds = front ++ ds ∧ front ≠ []
      ∧ (∀ c ∈ front, c.isDigit = true) ∧ decimalValue 0 front = n
      ∧ (n ≠ 0 → front.head? ≠ some '0') := by
  induction fuel with
  | zero => intro n ds h; omega
  | succ fuel ih =>
      intro n ds hn
      have hd := digitChar_facts (n % 10) (Nat.mod_lt _ (by decide))
      unfold Nat.toDigitsCore
      generalize Nat.digitChar (n % 10) = d at hd ⊢
      obtain ⟨hd1, hd2, hd3⟩ := hd
      by_cases h0 : n / 10 = 0
      · have hlt : n < 10 := by omega
        have hmod : n % 10 = n := Nat.mod_eq_of_lt hlt
        refine ⟨[d], by simp [h0], by simp, ?_, ?_, ?_⟩
        · intro c hc
          rw [List.mem_singleton] at hc
          rw [hc]; exact hd2
        · show 0 * 10 + (d.toNat - 48) = n
          rw [hd1]; omega
        · intro hne
          rw [hmod] at hd3
          simpa using hd3 hne
      · obtain ⟨front, hfront, hne, hdig, hval, hhead⟩ := ih (n / 10) (d :: ds) (by omega)
        refine ⟨front ++ [d], by simp [h0, hfront], by simp, ?_, ?_, ?_⟩
        · intro c hc
          rcases List.mem_append.1 hc with hc | hc
          · exact hdig c hc
          · rw [List.mem_singleton] at hc
            rw [hc]; exact hd2
        · rw [decimalValue_append, hval]
          show n / 10 * 10 + (d.toNat - 48) = n
          rw [hd1]; omega
        · intro _
          have := hhead h0
          cases front with
          | nil => exact absurd rfl hne
          | cons c front => simpa using this

/-- The text `formatInt n` is the decimal representation of `n`: digits only, at least
one, their value is `n`, and no leading zero unless `n = 0`. -/
theorem formatInt_spec (n : Nat) :
    (formatInt n).data ≠ [] ∧ (∀ c ∈ (formatInt n).data, c.isDigit = true)
      ∧ decimalValue 0 (formatInt n).data = n
      ∧ (n ≠ 0 → (formatInt n).data.head? ≠ some '0') := by
  obtain ⟨front, hfront, hne, hdig, hval, hhead⟩ := toDigitsCore_spec (n + 1) n [] (by omega)
  have : (formatInt n).data = front := by
    simp [formatInt, Nat.toDigits, hfront]
  rw [this]
  exact ⟨hne, hdig, hval, hhead⟩

theorem openBrowser_lastArg (GOOS : String) (start : Cmd → Option GoError) (url : String) :
    ∀ cmd ∈ (openBrowser GOOS start url).2, cmd.args.getLast? = some url := by
  intro cmd hc
  unfold openBrowser at hc
  split_ifs at hc <;> simp at hc <;> subst hc <;> rfl

theorem sampleEnv_results_eq :
    (OpenInBrowser sampleEnv helloBytes).1 = (OpenInBrowser sampleEnv9090 helloBytes).1 := by
  rw [OpenInBrowser_page sampleEnv helloBytes 8080 _ _ _ rfl rfl,
    OpenInBrowser_page sampleEnv9090 helloBytes 9090 _ _ _ rfl rfl]

/-- Claim C8, as stated, fails: no URL is among the values `OpenInBrowser` returns.  The
results for the ports 8080 and 9090 are the same while the URLs differ, so no function
of the returned values gives the base URL of every successful start. -/
theorem no_baseURL_returned :
    ¬ ∃ f : Results → String, ∀ (env : Env) (qrData : List Byte) (p : Nat),
      env.listen = .ok p → (OpenInBrowser env qrData).1.err = none →
        f (OpenInBrowser env qrData).1 = baseURL p := by
  rintro ⟨f, hf⟩
  have h1 := hf sampleEnv helloBytes 8080 rfl
    (by rw [OpenInBrowser_page sampleEnv helloBytes 8080 _ _ _ rfl rfl])
  have h2 := hf sampleEnv9090 helloBytes 9090 rfl
    (by rw [OpenInBrowser_page sampleEnv9090 helloBytes 9090 _ _ _ rfl rfl])
  rw [sampleEnv_results_eq, h2] at h1
  exact absurd h1 (by decide)

/-- Claim C8, amended: for every call of `OpenInBrowser` that succeeds, the bind having
given port `p` between 1 and 65535 and the page having rendered, the URL it builds is
`http://127.0.0.1:` followed by the decimal digits of `p` without a leading zero and
nothing after them; this URL is the one passed to `openBrowser` (it is the last argument
of the command started) and the one printed; the values returned are the two closures
and a nil error, the URL not being among them. -/
theorem baseURL_built_and_launched (env : Env) (qrData : List Byte) (p : Nat)
    (hl : env.listen = .ok p) (herr : (OpenInBrowser env qrData).1.err = none)
    (hp1 : 1 ≤ p) (hp2 : p ≤ 65535) :
    baseURL p = "http://127.0.0.1:" ++ formatInt p
    ∧ (formatInt p).data ≠ []
    ∧ (∀ c ∈ (formatInt p).data, c.isDigit = true)
    ∧ (formatInt p).data.head? ≠ some '0'
    ∧ decimalValue 0 (formatInt p).data = p
    ∧ (formatInt p).length ≤ 5
    ∧ (OpenInBrowser env qrData).2.started = (openBrowser env.GOOS env.start (baseURL p)).2
    ∧ (∀ cmd ∈ (OpenInBrowser env qrData).2.started, cmd.args.getLast? = some (baseURL p))
    ∧ (∃ msg, (OpenInBrowser env qrData).2.stdout = [.text (msg ++ baseURL p ++ "\n")])
    ∧ (OpenInBrowser env qrData).1.shutdown = some shutdown
    ∧ (OpenInBrowser env qrData).1.notifySuccess = some notifySuccess
    ∧ (OpenInBrowser env qrData).1.err = none := by
  obtain ⟨pre, ctx, post, ht⟩ := OpenInBrowser_success env qrData p hl herr
  obtain ⟨h1, h2, h3, h4⟩ := formatInt_spec p
  rw [OpenInBrowser_page env qrData p pre post ctx hl ht]
  refine ⟨rfl, h1, h2, h4 (by omega), h3, ?_, rfl, openBrowser_lastArg _ _ _, ?_, rfl, rfl, rfl⟩
  · have := Nat.repr_length p 5 (by decide) (by omega)
    simpa [formatInt, Nat.repr, List.asString] using this
  · dsimp only
    split
    · exact ⟨_, rfl⟩
    · exact ⟨_, rfl⟩

/-- Claim C8, amended, on the sample environment: the call succeeds on port 8080, which
gives `http://127.0.0.1:8080`, handed to `xdg-open` and printed. -/
theorem baseURL_built_and_launched_witness :
    sampleEnv.listen = .ok 8080
    ∧ (OpenInBrowser sampleEnv helloBytes).1.err = none
    ∧ baseURL 8080 = "http://127.0.0.1:8080"
    ∧ (OpenInBrowser sampleEnv helloBytes).2.started
        = [⟨"xdg-open", ["http://127.0.0.1:8080"]⟩]
    ∧ ∃ msg, (OpenInBrowser sampleEnv helloBytes).2.stdout
        = [.text (msg ++ baseURL 8080 ++ "\n")] :=
  have h := baseURL_built_and_launched sampleEnv helloBytes 8080 rfl (by decide)
    (by decide) (by decide)
  ⟨rfl, by decide, by decide, h.2.2.2.2.2.2.1, h.2.2.2.2.2.2.2.2.1⟩

/-- Claim C7: `openBrowser` dispatches on `runtime.GOOS`: `open url` on darwin,
`xdg-open url` on linux, `rundll32 url.dll,FileProtocolHandler url` on windows, and on
every other system it starts nothing and returns an error naming the system.  Whatever
the system and the outcome of the launch, once the listener is bound and the page is
rendered `OpenInBrowser` returns a nil error with both closures, and when the launch
fails all it prints is the line asking to visit the URL by hand. -/
theorem openBrowser_dispatch_nonfatal (env : Env) (qrData : List Byte) (port : Nat)
    (pre post : String) (ctx : EscapeContext)
    (hl : env.listen = .ok port) (ht : env.loginTemplate = .page pre ctx post) :
    (∀ start url, openBrowser "darwin" start url
        = (start ⟨"open", [url]⟩, [⟨"open", [url]⟩]))
    ∧ (∀ start url, openBrowser "linux" start url
        = (start ⟨"xdg-open", [url]⟩, [⟨"xdg-open", [url]⟩]))
    ∧ (∀ start url, openBrowser "windows" start url
        = (start ⟨"rundll32", ["url.dll,FileProtocolHandler", url]⟩,
           [⟨"rundll32", ["url.dll,FileProtocolHandler", url]⟩]))
    ∧ (∀ GOOS start url, GOOS ≠ "darwin" → GOOS ≠ "linux" → GOOS ≠ "windows" →
        openBrowser GOOS start url = (some (.msg ("不支持的操作系统: " ++ GOOS)), []))
    ∧ (OpenInBrowser env qrData).1.err = none
    ∧ (OpenInBrowser env qrData).1.shutdown = some shutdown
    ∧ (OpenInBrowser env qrData).1.notifySuccess = some notifySuccess
    ∧ (OpenInBrowser env qrData).2.started = (openBrowser env.GOOS env.start (baseURL port)).2
    ∧ ((openBrowser env.GOOS env.start (baseURL port)).1.isSome = true →
        (OpenInBrowser env qrData).2.stdout
          = [.text ("无法自动打开浏览器，请手动访问: " ++ baseURL port ++ "\n")]) := by
  rw [OpenInBrowser_page env qrData port pre post ctx hl ht]
  refine ⟨fun _ _ => rfl, fun _ _ => rfl, fun _ _ => rfl, ?_, rfl, rfl, rfl, rfl, ?_⟩
  · intro GOOS start url h1 h2 h3
    simp [openBrowser, h1, h2, h3]
  · intro h
    simp [h]

/-- Claim C7 on a system without a launcher: nothing is started, the result is still a success, and the line to visit the URL by hand is printed. -/
theorem openBrowser_dispatch_nonfatal_witness :
    plan9Env.listen = .ok 8080
    ∧ (OpenInBrowser plan9Env helloBytes).1.err = none
    ∧ (OpenInBrowser plan9Env helloBytes).2.started = []
    ∧ (OpenInBrowser plan9Env helloBytes).2.stdout
        = [.text "无法自动打开浏览器，请手动访问: http://127.0.0.1:8080\n"] :=
  have h := openBrowser_dispatch_nonfatal plan9Env helloBytes 8080 _ _ _ rfl rfl
  ⟨rfl, h.2.2.2.2.1, h.2.2.2.2.2.2.2.1, h.2.2.2.2.2.2.2.2 (by decide)⟩

/-! ## Template failure -/

/-- Claim C5, as stated, fails: when `Parse` rejects the template, `OpenInBrowser`
returns the wrapped error, and by then the listener has been bound (on port 8080 here)
and has not been closed. -/
theorem template_failure_listener_bound :
    (OpenInBrowser brokenEnv helloBytes).1.err
      = some (.wrap "解析模板失败: " (.msg "template: login:1: unexpected EOF"))
    ∧ ¬ (OpenInBrowser brokenEnv helloBytes).2.bound = none
    ∧ (OpenInBrowser brokenEnv helloBytes).2.bound = some 8080
    ∧ (OpenInBrowser brokenEnv helloBytes).2.closed = false := by
  decide

/-- Claim C5, amended: when parsing or executing the login page template fails,
`OpenInBrowser` returns a non-nil error, which wraps the template error, with both
closures nil; the listener has been bound by then, binding being the first step; no
server is serving, no browser has been launched and nothing has been printed. -/
theorem template_failure_returns_error (env : Env) (qrData : List Byte) (port : Nat)
    (e : GoError) (hl : env.listen = .ok port)
    (ht : Parse env.loginTemplate = .error e
      ∨ ∃ tmpl, Parse env.loginTemplate = .ok tmpl
          ∧ Execute tmpl (EncodeToString qrData) = .error e) :
    (∃ context, (OpenInBrowser env qrData).1.err = some (.wrap context e))
    ∧ ((OpenInBrowser env qrData).1.err.bind GoError.Unwrap = some e)
    ∧ (OpenInBrowser env qrData).1.shutdown = none
    ∧ (OpenInBrowser env qrData).1.notifySuccess = none
    ∧ (OpenInBrowser env qrData).2.bound = some port
    ∧ (OpenInBrowser env qrData).2.server = none
    ∧ (OpenInBrowser env qrData).2.started = []
    ∧ (OpenInBrowser env qrData).2.stdout = [] := by
  rcases ht with ht | ⟨tmpl, ht, he⟩
  · have h : OpenInBrowser env qrData = (⟨none, none, some (.wrap "解析模板失败: " e)⟩,
        ⟨some port, false, none, [], []⟩) := by
      simp only [OpenInBrowser, hl, ht]
    rw [h]
    exact ⟨⟨_, rfl⟩, rfl, rfl, rfl, rfl, rfl, rfl, rfl⟩
  · have h : OpenInBrowser env qrData = (⟨none, none, some (.wrap "渲染模板失败: " e)⟩,
        ⟨some port, false, none, [], []⟩) := by
      simp only [OpenInBrowser, hl, ht, he]
    rw [h]
    exact ⟨⟨_, rfl⟩, rfl, rfl, rfl, rfl, rfl, rfl, rfl⟩

/-- Claim C5, amended, on the environment whose template does not parse. -/
theorem template_failure_returns_error_witness :
    brokenEnv.listen = .ok 8080
    ∧ Parse brokenEnv.loginTemplate = .error (.msg "template: login:1: unexpected EOF")
    ∧ (OpenInBrowser brokenEnv helloBytes).1.shutdown = none
    ∧ (OpenInBrowser brokenEnv helloBytes).2.server = none :=
  have h := template_failure_returns_error brokenEnv helloBytes 8080
    (.msg "template: login:1: unexpected EOF") rfl (Or.inl rfl)
  ⟨rfl, rfl, h.2.2.1, h.2.2.2.2.2.1⟩


/-! ## The page: base64 and escaping -/

theorem stdIndex_stdChar : ∀ i, i < 64 → stdIndex (stdChar i) = some i ∧ stdChar i ≠ '=' := by
  decide

theorem stdChar_mem (i : Nat) : stdChar i ∈ encodeStd := by
  by_cases h : i < 64
  · revert i
    decide
  · have : encodeStd.length ≤ i := by
      have : encodeStd.length = 64 := by decide
      omega
    unfold stdChar
    rw [List.getD_eq_default _ _ this]
    decide

theorem toByte_val (a : Byte) (n : Nat) (h : n = a.val) : toByte n = a := by
  apply Fin.ext
  show n % 256 = a.val
  have := a.isLt
  omega

/-- Decoding undoes `base64.StdEncoding` encoding. -/
theorem decodeChars_encodeChars (src : List Byte) :
    decodeChars (encodeChars src) = some src := by
  induction src using encodeChars.induct with
  | case1 => rfl
  | case2 a =>
      have ha := a.isLt
      obtain ⟨h0, -⟩ := stdIndex_stdChar (a.val * 65536 / 262144 % 64) (Nat.mod_lt _ (by decide))
      obtain ⟨h1, -⟩ := stdIndex_stdChar (a.val * 65536 / 4096 % 64) (Nat.mod_lt _ (by decide))
      simp only [encodeChars, decodeChars, and_self, if_true, h0, h1, Option.some_bind,
        Option.some.injEq, List.cons.injEq, and_true]
      exact toByte_val a _ (by omega)
  | case3 a b =>
      have ha := a.isLt
      have hb := b.isLt
      obtain ⟨h0, -⟩ := stdIndex_stdChar ((a.val * 65536 + b.val * 256) / 262144 % 64)
        (Nat.mod_lt _ (by decide))
      obtain ⟨h1, -⟩ := stdIndex_stdChar ((a.val * 65536 + b.val * 256) / 4096 % 64)
        (Nat.mod_lt _ (by decide))
      obtain ⟨h2, n2⟩ := stdIndex_stdChar ((a.val * 65536 + b.val * 256) / 64 % 64)
        (Nat.mod_lt _ (by decide))
      simp only [encodeChars, decodeChars, and_self, if_true, n2, if_false, h0, h1, h2,
        Option.some_bind, Option.some.injEq, List.cons.injEq, and_true]
      exact ⟨toByte_val a _ (by omega), toByte_val b _ (by omega)⟩
  | case4 a b c rest ih =>
      have ha := a.isLt
      have hb := b.isLt
      have hc := c.isLt
      obtain ⟨h0, -⟩ := stdIndex_stdChar ((a.val * 65536 + b.val * 256 + c.val) / 262144 % 64)
        (Nat.mod_lt _ (by decide))
      obtain ⟨h1, -⟩ := stdIndex_stdChar ((a.val * 65536 + b.val * 256 + c.val) / 4096 % 64)
        (Nat.mod_lt _ (by decide))
      obtain ⟨h2, -⟩ := stdIndex_stdChar ((a.val * 65536 + b.val * 256 + c.val) / 64 % 64)
        (Nat.mod_lt _ (by decide))
      obtain ⟨h3, n3⟩ := stdIndex_stdChar ((a.val * 65536 + b.val * 256 + c.val) % 64)
        (Nat.mod_lt _ (by decide))
      simp only [encodeChars, decodeChars, n3, and_false, if_false, h0, h1, h2, h3, ih,
        Option.some_bind, Option.some.injEq, List.cons.injEq, and_true]
      exact ⟨toByte_val a _ (by omega), toByte_val b _ (by omega), toByte_val c _ (by omega)⟩

/-- The characters of an encoding are those of the alphabet and the padding `=`. -/
theorem encodeChars_mem (src : List Byte) : ∀ c ∈ encodeChars src, c ∈ encodeStd ++ ['='] := by
  induction src using encodeChars.induct with
  | case1 => intro c hc; cases hc
  | case2 a =>
      intro c hc
      simp only [encodeChars, List.mem_cons, List.mem_singleton, List.not_mem_nil, or_false,
        or_self] at hc
      rcases hc with h | h | h <;> subst h <;>
        first | exact List.mem_append_left _ (stdChar_mem _) | exact List.mem_append_right _ (by simp)
  | case3 a b =>
      intro c hc
      simp only [encodeChars, List.mem_cons, List.mem_singleton, List.not_mem_nil,
        or_false] at hc
      rcases hc with h | h | h | h <;> subst h <;>
        first | exact List.mem_append_left _ (stdChar_mem _) | exact List.mem_append_right _ (by simp)
  | case4 a b c rest ih =>
      intro x hx
      simp only [encodeChars, List.mem_cons] at hx
      rcases hx with h | h | h | h | h
      · subst h; exact List.mem_append_left _ (stdChar_mem _)
      · subst h; exact List.mem_append_left _ (stdChar_mem _)
      · subst h; exact List.mem_append_left _ (stdChar_mem _)
      · subst h; exact List.mem_append_left _ (stdChar_mem _)
      · exact ih x h

theorem base64Char_facts : ∀ c ∈ encodeStd ++ ['='],
    urlKept c = true ∧ c ≠ '%'
      ∧ htmlReplacementTable c = if c = '+' then some "&#43;" else none := by
  decide

/-- On base64 text `processURLOnto` changes nothing. -/
theorem processURL_base64 (s : List Char) (h : ∀ c ∈ s, c ∈ encodeStd ++ ['=']) :
    processURL s = s := by
  induction s with
  | nil => rfl
  | cons c s ih =>
      have hc := (base64Char_facts c (h c (List.mem_cons_self _ _))).1
      have hs := ih fun x hx => h x (List.mem_cons_of_mem _ hx)
      simp [processURL, hc, hs]

/-- On base64 text `htmlReplacer` rewrites `+` and nothing else. -/
theorem htmlReplacer_base64 (s : List Char) (h : ∀ c ∈ s, c ∈ encodeStd ++ ['=']) :
    htmlReplacer htmlReplacementTable s = plusEscaped s := by
  induction s with
  | nil => rfl
  | cons c s ih =>
      have hc := (base64Char_facts c (h c (List.mem_cons_self _ _))).2.2
      have hs := ih fun x hx => h x (List.mem_cons_of_mem _ hx)
      unfold htmlReplacer plusEscaped at hs ⊢
      rw [List.flatMap_cons, List.flatMap_cons, hs, hc]
      by_cases hp : c = '+' <;> simp [hp]

/-- In each context the value written in the page is the encoding with `+` rewritten. -/
theorem escapeAction_base64 (ctx : EscapeContext) (src : List Byte) :
    (escapeAction ctx (EncodeToString src)).data = plusEscaped (encodeChars src) := by
  cases ctx
  · exact htmlReplacer_base64 _ (encodeChars_mem src)
  · exact htmlReplacer_base64 _ (encodeChars_mem src)
  · show htmlReplacer htmlReplacementTable (processURL (encodeChars src)) = _
    rw [processURL_base64 _ (encodeChars_mem src)]
    exact htmlReplacer_base64 _ (encodeChars_mem src)

theorem plusEscaped_of_not_mem (s : List Char) (h : '+' ∉ s) : plusEscaped s = s := by
  induction s with
  | nil => rfl
  | cons c s ih =>
      have hc : c ≠ '+' := fun e => h (e ▸ List.mem_cons_self _ _)
      have hs := ih fun e => h (List.mem_cons_of_mem _ e)
      unfold plusEscaped at hs ⊢
      rw [List.flatMap_cons, hs]
      simp [hc]

/-- A text that decodes to the single byte 251 starts with `+`. -/
theorem decodeChars_251 (l : List Char) (h : decodeChars l = some [251]) : '+' ∈ l := by
  match l, h with
  | [a, b, c, d], h =>
      by_cases hd : d = '=' <;> by_cases hc : c = '='
      · simp only [decodeChars, hd, hc, and_self, if_true] at h
        cases ha : stdIndex a with
        | none => simp [ha] at h
        | some x =>
            cases hb : stdIndex b with
            | none => simp [ha, hb] at h
            | some y =>
                simp only [ha, hb, Option.some_bind, Option.some.injEq, List.cons.injEq,
                  and_true] at h
                have hx : x < 64 ∧ y < 64 ∧ a = stdChar x := by
                  unfold stdIndex at ha hb
                  split at ha <;> split at hb <;> simp at ha hb
                  rename_i ma mb
                  have l1 := List.indexOf_lt_length.2 ma
                  have l2 := List.indexOf_lt_length.2 mb
                  have l3 : encodeStd.length = 64 := by decide
                  refine ⟨by omega, by omega, ?_⟩
                  rw [← ha]
                  unfold stdChar
                  rw [List.getD_eq_getElem _ _ l1]
                  exact (List.getElem_indexOf l1).symm
                have hv : (x * 4 + y / 16) % 256 = 251 := congrArg Fin.val h
                have : x = 62 := by omega
                rw [hx.2.2, this]
                exact List.mem_cons.2 (Or.inl (by decide))
      · simp [decodeChars, hd, hc] at h
        cases ha : stdIndex a <;> cases hb : stdIndex b <;> cases hc2 : stdIndex c <;>
          simp [ha, hb, hc2] at h
      · simp [decodeChars, hd] at h
        cases ha : stdIndex a <;> cases hb : stdIndex b <;> cases hc2 : stdIndex c <;>
          cases hd2 : stdIndex d <;> simp [ha, hb, hc2, hd2] at h
      · simp [decodeChars, hd] at h
        cases ha : stdIndex a <;> cases hb : stdIndex b <;> cases hc2 : stdIndex c <;>
          cases hd2 : stdIndex d <;> simp [ha, hb, hc2, hd2] at h
  | [], h => simp [decodeChars] at h
  | [_], h => simp [decodeChars] at h
  | [_, _], h => simp [decodeChars] at h
  | [_, _, _], h => simp [decodeChars] at h
  | a :: b :: c :: d :: e :: rest, h =>
      simp only [decodeChars, reduceCtorEq, false_and, if_false] at h
      cases ha : stdIndex a <;> cases hb : stdIndex b <;> cases hc2 : stdIndex c <;>
        cases hd2 : stdIndex d <;> cases hr : decodeChars (e :: rest) <;>
        simp [ha, hb, hc2, hd2, hr] at h


/-- Claim C3, as stated, fails: for the payload of the single byte 251, whose encoding is
`+w==`, the page served at `GET /` holds `&#43;w==` and no contiguous part of it decodes
to the payload. -/
theorem page_without_base64_substring :
    EncodeToString [251] = "+w=="
    ∧ (OpenInBrowser sampleEnv [251]).2.server = some (newServer
        "<html><body><img src=\"data:image/png;base64,&#43;w==\"></body></html>")
    ∧ ¬ ∃ t : String,
        t.data <:+: (handleRoot (newServer
          "<html><body><img src=\"data:image/png;base64,&#43;w==\"></body></html>")).2.body.data
        ∧ DecodeString t = some [251] := by
  refine ⟨by decide, by decide, ?_⟩
  rintro ⟨t, hinfix, hdec⟩
  have hmem := hinfix.subset (decodeChars_251 t.data hdec)
  revert hmem
  decide

/-- Claim C3, amended: for every payload for which `OpenInBrowser` succeeds, the HTML
body served at `GET /` is the template text around the padded standard base64 encoding
of the payload in which each `+` is written `&#43;` and every other character, `/` and
`=` included, is unaltered; that text is a contiguous part of the body; the encoding
decodes to exactly the payload; and when the encoding has no `+` it is itself a
contiguous part of the body. -/
theorem page_contains_escaped_base64 (env : Env) (qrData : List Byte) (port : Nat)
    (pre post : String) (ctx : EscapeContext)
    (hl : env.listen = .ok port) (ht : env.loginTemplate = .page pre ctx post) :
    ∃ s0, (OpenInBrowser env qrData).2.server = some s0
      ∧ (handleRoot s0).2.body.data
          = pre.data ++ plusEscaped (EncodeToString qrData).data ++ post.data
      ∧ plusEscaped (EncodeToString qrData).data <:+: (handleRoot s0).2.body.data
      ∧ DecodeString (EncodeToString qrData) = some qrData
      ∧ ('+' ∉ (EncodeToString qrData).data →
          (EncodeToString qrData).data <:+: (handleRoot s0).2.body.data) := by
  rw [OpenInBrowser_page env qrData port pre post ctx hl ht]
  have hbody : (handleRoot (newServer
      (pre ++ escapeAction ctx (EncodeToString qrData) ++ post))).2.body.data
      = pre.data ++ plusEscaped (EncodeToString qrData).data ++ post.data := by
    show (pre ++ escapeAction ctx (EncodeToString qrData) ++ post).data = _
    rw [String.data_append, String.data_append, escapeAction_base64]
    rfl
  refine ⟨_, rfl, hbody, ?_, decodeChars_encodeChars qrData, ?_⟩
  · rw [hbody]
    exact ⟨pre.data, post.data, rfl⟩
  · intro hplus
    rw [hbody, plusEscaped_of_not_mem _ hplus]
    exact ⟨pre.data, post.data, rfl⟩

/-- Claim C3, amended, on the payload `hello`, whose encoding `aGVsbG8=` has no `+` and stands in the page as it is. -/
theorem page_contains_escaped_base64_witness :
    sampleEnv.listen = .ok 8080
    ∧ EncodeToString helloBytes = "aGVsbG8="
    ∧ ∃ s0, (OpenInBrowser sampleEnv helloBytes).2.server = some s0
        ∧ (EncodeToString helloBytes).data <:+: (handleRoot s0).2.body.data
        ∧ DecodeString (EncodeToString helloBytes) = some helloBytes :=
  have ⟨s0, h1, _, _, h4, h5⟩ :=
    page_contains_escaped_base64 sampleEnv helloBytes 8080 _ _ _ rfl rfl
  ⟨rfl, by decide, s0, h1, h5 (by decide), h4⟩

/-! ## Saving the QR code -/

set_option maxRecDepth 100000 in
theorem umask_keeps_0644 : ∀ v, v < 512 → v &&& 0o644 = 0 → 0o644 &&& (0o777 ^^^ v) = 0o644 := by
  decide

theorem Files.set_same (fs : Files) (name : String) (f : File) : fs.set name f name = some f := by
  simp [Files.set]

/-- Claim C9, as stated, fails: when `qrcode.png` already exists with mode 0600, the
write succeeds, the file holds the data, and its mode is still 0600, not 0644. -/
theorem existing_file_keeps_mode :
    (SaveQRCode sampleOS privateFiles helloBytes).1 = ("/home/u/qrcode.png", none)
    ∧ (SaveQRCode sampleOS privateFiles helloBytes).2 "/home/u/qrcode.png"
        = some ⟨helloBytes, 0o600⟩
    ∧ ¬ (SaveQRCode sampleOS privateFiles helloBytes).2 "/home/u/qrcode.png"
        = some ⟨helloBytes, 0o644⟩ := by
  decide

/-- A payload of 2331 bytes that are not alphanumeric can be encoded, one of 2332
cannot, and `Display` panics on it without printing. -/
theorem Display_panics_over_capacity :
    qrEncodes (List.replicate 2331 120) = true
    ∧ qrEncodes (List.replicate 2332 120) = false
    ∧ Display (List.replicate 2332 120) = (.panicked, []) := by
  have hdigit : ∀ n, 0 < n → (List.replicate n (120 : Byte)).all
      (fun b => decide (48 ≤ b.val ∧ b.val ≤ 57)) = false := by
    intro n hn
    cases n with
    | zero => omega
    | succ n => rfl
  have halpha : ∀ n, 0 < n → (List.replicate n (120 : Byte)).all
      (fun b => decide (b.val ∈ qrAlphabet)) = false := by
    intro n hn
    cases n with
    | zero => omega
    | succ n =>
        rw [List.replicate_succ, List.all_cons]
        have : decide ((120 : Byte).val ∈ qrAlphabet) = false := by decide
        rw [this]; rfl
  have h1 : qrEncodes (List.replicate 2331 120) = true := by
    unfold qrEncodes
    rw [hdigit _ (by decide), halpha _ (by decide), List.length_replicate]
    decide
  have h2 : qrEncodes (List.replicate 2332 120) = false := by
    unfold qrEncodes
    rw [hdigit _ (by decide), halpha _ (by decide), List.length_replicate]
    decide
  refine ⟨h1, h2, ?_⟩
  unfold Display
  rw [h2]
  rfl

/-- Claim C9, amended: when the write succeeds, `SaveQRCode` returns the working
directory joined with `qrcode.png` and a nil error, and the file at that path holds
exactly the data; 0644 is the permission the file is opened with, so that a file the
call creates has mode 0644 without the bits of the umask (0644 itself when the umask
has none of these bits) and a file that existed keeps its mode.  When `os.Getwd` or the
write fails it returns the empty path and that error.  `SaveAndDisplayQRCode` returns a
save error wrapped with context, the error itself being what `Unwrap` gives, and then
prints nothing, the QR code included; whenever it returns, it returns nil exactly when
the save succeeded; and after a successful save of a payload that fits in a QR code it
does return nil, having printed the path and the QR code. -/
theorem save_qrcode_contract (os : OS) (fs : Files) (qrData : List Byte) :
    (∀ dir, os.getwd = .ok dir →
      (WriteFile os fs (Join dir "qrcode.png") qrData 0o644).1 = none →
        (SaveQRCode os fs qrData).1 = (Join dir "qrcode.png", none)
        ∧ ((SaveQRCode os fs qrData).2 (Join dir "qrcode.png")).map File.data = some qrData
        ∧ ((SaveQRCode os fs qrData).2 (Join dir "qrcode.png")).map File.mode
            = some (match fs (Join dir "qrcode.png") with
                | some old => old.mode
                | none => 0o644 &&& (0o777 ^^^ (os.umask &&& 0o777)))
        ∧ (fs (Join dir "qrcode.png") = none → os.umask &&& 0o644 = 0 →
            (SaveQRCode os fs qrData).2 (Join dir "qrcode.png") = some ⟨qrData, 0o644⟩))
    ∧ (∀ e, os.getwd = .error e → SaveQRCode os fs qrData = (("", some e), fs))
    ∧ (∀ dir e, os.getwd = .ok dir →
        (WriteFile os fs (Join dir "qrcode.png") qrData 0o644).1 = some e →
          (SaveQRCode os fs qrData).1 = ("", some e))
    ∧ (∀ e, (SaveQRCode os fs qrData).1.2 = some e →
        (SaveAndDisplayQRCode os fs qrData).1
            = .returned (some (.wrap "保存二维码失败: " e))
        ∧ GoError.Unwrap (.wrap "保存二维码失败: " e) = some e
        ∧ (SaveAndDisplayQRCode os fs qrData).2.1 = [])
    ∧ (∀ r, (SaveAndDisplayQRCode os fs qrData).1 = .returned r →
        (r = none ↔ (SaveQRCode os fs qrData).1.2 = none))
    ∧ ((SaveQRCode os fs qrData).1.2 = none → qrEncodes qrData = true →
        (SaveAndDisplayQRCode os fs qrData).1 = .returned none
        ∧ (SaveAndDisplayQRCode os fs qrData).2.1
          = [.text ("二维码已保存至 " ++ (SaveQRCode os fs qrData).1.1
              ++ "，请使用手机QQ扫描登录\n"),
             .halfBlock qrData, .text "请使用手机QQ扫描上方二维码登录\n"]) := by
  refine ⟨?_, ?_, ?_, ?_, ?_, ?_⟩
  · intro dir hd hw
    have hok : os.write = .ok := by
      unfold WriteFile at hw
      cases h : os.write <;> simp [h] at hw
      rfl
    have hW : WriteFile os fs (Join dir "qrcode.png") qrData 0o644
        = (none, fs.set (Join dir "qrcode.png")
            ⟨qrData, openMode fs os.umask (Join dir "qrcode.png") 0o644⟩) := by
      simp [WriteFile, hok]
    have hS : SaveQRCode os fs qrData = ((Join dir "qrcode.png", none),
        fs.set (Join dir "qrcode.png")
          ⟨qrData, openMode fs os.umask (Join dir "qrcode.png") 0o644⟩) := by
      simp only [SaveQRCode, hd]
      rw [hW]
    rw [hS]
    refine ⟨rfl, by simp [Files.set_same], ?_, ?_⟩
    · simp only [Files.set_same, Option.map_some', openMode]
    · intro hnone hmask
      simp only [Files.set_same, openMode, hnone, Option.some.injEq, File.mk.injEq, true_and]
      have h1 : os.umask &&& 0o777 < 512 := Nat.lt_succ_of_le Nat.and_le_right
      have h2 : (os.umask &&& 0o777) &&& 0o644 = 0 := by
        rw [Nat.land_assoc]
        exact hmask
      exact umask_keeps_0644 _ h1 h2
  · intro e he
    simp only [SaveQRCode, he]
  · intro dir e hd hw
    simp only [SaveQRCode, hd]
    generalize WriteFile os fs (Join dir "qrcode.png") qrData 0o644 = r at hw ⊢
    obtain ⟨r1, r2⟩ := r
    simp only at hw
    subst hw
    rfl
  · intro e he
    unfold SaveAndDisplayQRCode
    generalize SaveQRCode os fs qrData = r at he ⊢
    obtain ⟨⟨p, err⟩, fs1⟩ := r
    simp only at he
    subst he
    exact ⟨rfl, rfl, rfl⟩
  · intro r hr
    unfold SaveAndDisplayQRCode at hr
    generalize SaveQRCode os fs qrData = sv at hr ⊢
    obtain ⟨⟨p, err⟩, fs1⟩ := sv
    cases err with
    | some e =>
        simp only [Outcome.returned.injEq] at hr
        subst hr
        simp
    | none =>
        simp only [Display] at hr
        by_cases hq : qrEncodes qrData = true
        · simp only [hq, if_true, Outcome.returned.injEq] at hr
          subst hr
          simp
        · simp [hq] at hr
  · intro he hq
    unfold SaveAndDisplayQRCode
    generalize SaveQRCode os fs qrData = sv at he ⊢
    obtain ⟨⟨p, err⟩, fs1⟩ := sv
    simp only at he
    subst he
    simp [Display, hq]

/-- Claim C9, amended, on a system with umask 022 and no file yet: the file is created
with mode 0644, and `SaveAndDisplayQRCode` returns nil after printing the path and the
QR code. -/
theorem save_qrcode_contract_witness :
    sampleOS.getwd = .ok "/home/u"
    ∧ (WriteFile sampleOS noFiles (Join "/home/u" "qrcode.png") helloBytes 0o644).1 = none
    ∧ Join "/home/u" "qrcode.png" = "/home/u/qrcode.png"
    ∧ (SaveQRCode sampleOS noFiles helloBytes).1 = (Join "/home/u" "qrcode.png", none)
    ∧ (SaveQRCode sampleOS noFiles helloBytes).2 (Join "/home/u" "qrcode.png")
        = some ⟨helloBytes, 0o644⟩
    ∧ (SaveQRCode sampleOS noFiles helloBytes).1.2 = none
    ∧ qrEncodes helloBytes = true
    ∧ (SaveAndDisplayQRCode sampleOS noFiles helloBytes).1 = .returned none :=
  have h := save_qrcode_contract sampleOS noFiles helloBytes
  have h1 := h.1 "/home/u" rfl rfl
  ⟨rfl, rfl, by decide, h1.1, h1.2.2.2 rfl (by decide), by decide, by decide,
    (h.2.2.2.2.2 (by decide) (by decide)).1⟩

end Qrcode
